import Mathlib

set_option maxRecDepth 4000

/-!
Verification of the `secret_gitlab_trigger` Cloud Function
(`src/secret_gitlab_trigger/__init__.py`).

The Python module reacts to Secret Manager audit events: it parses the
event, loads configuration from the environment, fetches the labels of
the affected secret, compares them against a required-label policy and,
on a match, POSTs a pipeline-trigger request to a GitLab instance.

Shallow embedding conventions:
* Python `dict[str, str]` values become association lists
  (`Labels := List (String × String)`); Python dicts have distinct keys,
  and `dictGet` models `dict.get` (first match).
* `os.environ` is a record of `Option String` fields, one per key the
  handler reads; `Option.getD` models `os.environ.get(k, default)` and
  `pyFalsy` models Python truthiness of `os.environ.get(k)` (`None` and
  `""` are both falsy).
* The three effectful dependencies are oracle parameters:
  `jsonLoads` for `json.loads` (`none` = `json.JSONDecodeError`),
  `client_get_secret` for the Secret Manager lookup
  (`Except.error` = raised exception), and `post` for `requests.post`
  combined with `raise_for_status` / `.json()`
  (`Except.error` = `requests.exceptions.RequestException`).
* The handler's observable outcome is `HandlerResult`:
  `missingConfig`, `labelMismatch` and `triggered` are normal returns
  (`return` in Python), while `storeError` and `triggerError` model an
  exception propagating out of `handle_secret_event` (the code re-raises
  in both places so that Eventarc redelivers the event).
* `print` calls are pure no-ops and are dropped.
* Strings split/join (`str.split`, `str.join`) are embedded at the
  `List Char` level (`splitChar`, `joinChar`), and `urllib.parse.quote`
  with `safe=""` is embedded byte-exactly over the UTF-8 encoding
  (`utf8Bytes`, `quoteByte`, `quote`).
-/

/-- Association-list representation of a Python `dict[str, str]`. -/
abbrev Labels := List (String × String)

/-- Model of Python `dict.get(key)` on a `Labels` association list:
`some v` when the key is present with value `v`, `none` (Python `None`)
otherwise. -/
def dictGet : Labels → String → Option String
  | [], _ => none
  | (k, v) :: rest, key => if k = key then some v else dictGet rest key

/-- Embedding of `check_required_labels(secret_labels, required_labels)`:
iterate over the required pairs and return `False` at the first key whose
looked-up value differs (`secret_labels.get(key) != value`); return
`True` once the loop ends. -/
def check_required_labels (secret_labels : Labels) : Labels → Bool
  | [] => true
  | (key, value) :: rest =>
    if dictGet secret_labels key ≠ some value then false
    else check_required_labels secret_labels rest

/-- The literal mapping dict inside `get_event_type`. -/
def event_type_mapping : Labels :=
  [("AddSecretVersion", "CREATE"),
   ("EnableSecretVersion", "ENABLE"),
   ("DisableSecretVersion", "DISABLE"),
   ("DestroySecretVersion", "DESTROY")]

/-- Embedding of `get_event_type(method_name)`:
`mapping.get(method_name, "UNKNOWN")`. -/
def get_event_type (method_name : String) : String :=
  (dictGet event_type_mapping method_name).getD "UNKNOWN"

/-- Model of Python `str.split(sep)` for a one-character separator, at the
`List Char` level: empty input yields `[[]]` (Python `"".split("/") == [""]`),
and every separator occurrence starts a new (possibly empty) segment. -/
def splitChar (sep : Char) : List Char → List (List Char)
  | [] => [[]]
  | c :: cs =>
    if c = sep then [] :: splitChar sep cs
    else
      match splitChar sep cs with
      | [] => [[c]]
      | seg :: rest => (c :: seg) :: rest

/-- Model of Python `sep.join(parts)` for a one-character separator. -/
def joinChar (sep : Char) : List (List Char) → List Char
  | [] => []
  | [x] => x
  | x :: y :: xs => x ++ sep :: joinChar sep (y :: xs)

/-- Model of Python `list.index(x)` guarded by `x in list` (first
occurrence, `none` when absent). -/
def pyIndex (x : List Char) : List (List Char) → Option Nat
  | [] => none
  | y :: ys => if y = x then some 0 else (pyIndex x ys).map (· + 1)

/-- Embedding of `extract_secret_name(resource_name)`: split on `/`; if a
segment `"secrets"` occurs (first occurrence) and a following segment
exists, return that following segment, otherwise return the input. -/
def extract_secret_name (resource_name : String) : String :=
  let parts := splitChar '/' resource_name.data
  match pyIndex "secrets".data parts with
  | some secret_idx =>
    match parts[secret_idx + 1]? with
    | some seg => String.mk seg
    | none => resource_name
  | none => resource_name

/-- Embedding of `get_secret_resource_path(resource_name)`: split on `/`;
if a segment `"versions"` occurs (first occurrence), join the segments
before it with `/`, otherwise return the input. -/
def get_secret_resource_path (resource_name : String) : String :=
  let parts := splitChar '/' resource_name.data
  match pyIndex "versions".data parts with
  | some version_idx => String.mk (joinChar '/' (parts.take version_idx))
  | none => resource_name

/-- Uppercase hexadecimal digit, as produced by `urllib.parse.quote`'s
`%XX` escapes. -/
def hexUpper (n : Nat) : Char :=
  if n < 10 then Char.ofNat (48 + n) else Char.ofNat (55 + n)

/-- The byte values `urllib.parse.quote(s, safe="")` leaves unescaped:
ASCII letters, digits, and `_.-~` (`ALWAYS_SAFE` with an empty `safe`
set). -/
def isSafeByte (b : Nat) : Bool :=
  (65 ≤ b && b ≤ 90) || (97 ≤ b && b ≤ 122) || (48 ≤ b && b ≤ 57) ||
    b == 45 || b == 46 || b == 95 || b == 126

/-- Percent-encoding of a single byte (value as `Nat`): kept literally when
safe, otherwise `%` followed by two uppercase hex digits. -/
def quoteByte (b : Nat) : List Char :=
  if isSafeByte b then [Char.ofNat b] else ['%', hexUpper (b / 16), hexUpper (b % 16)]

/-- UTF-8 encoding of one character, byte values as `Nat` — the byte
sequence Python's `str.encode("utf-8")` produces, which
`urllib.parse.quote` percent-encodes. -/
def utf8Bytes (c : Char) : List Nat :=
  let n := c.toNat
  if n < 128 then [n]
  else if n < 2048 then
    [192 ||| (n >>> 6), 128 ||| (n &&& 63)]
  else if n < 65536 then
    [224 ||| (n >>> 12), 128 ||| ((n >>> 6) &&& 63), 128 ||| (n &&& 63)]
  else
    [240 ||| (n >>> 18), 128 ||| ((n >>> 12) &&& 63), 128 ||| ((n >>> 6) &&& 63),
     128 ||| (n &&& 63)]

/-- Embedding of `urllib.parse.quote(s, safe="")`: percent-encode every
unsafe byte of the UTF-8 encoding of `s`. -/
def quote (s : String) : String :=
  String.mk (((s.data.map utf8Bytes).flatten.map quoteByte).flatten)

/-- The HTTP request `trigger_gitlab_pipeline` constructs: the URL, the
percent-encoded project path segment interpolated into it, and the
form-encoded body (`data=payload`). -/
structure TriggerRequest where
  url : String
  encodedProject : String
  payload : List (String × String)

/-- Request construction in `trigger_gitlab_pipeline` (lines building
`encoded_project`, `url` and `payload`): the body holds `token` and `ref`
plus one `variables[KEY]=VALUE` field per variable. -/
def buildTriggerRequest (gitlab_url project_id trigger_token ref : String)
    (vars : Labels) : TriggerRequest :=
  let encoded_project := quote project_id
  ⟨gitlab_url ++ "/api/v4/projects/" ++ encoded_project ++ "/trigger/pipeline",
   encoded_project,
   ("token", trigger_token) :: ("ref", ref) ::
     vars.map (fun kv => ("variables[" ++ kv.1 ++ "]", kv.2))⟩

/-- Embedding of `trigger_gitlab_pipeline`: build the request and hand it
to the HTTP oracle `post`, which models `requests.post` +
`raise_for_status()` + `.json()` (`Except.error` = raised
`RequestException`, propagated to the caller). -/
def trigger_gitlab_pipeline (post : TriggerRequest → Except String Labels)
    (gitlab_url project_id trigger_token ref : String) (vars : Labels) :
    Except String Labels :=
  post (buildTriggerRequest gitlab_url project_id trigger_token ref vars)

/-- Embedding of `get_secret_labels(secret_name)`: call the Secret Manager
oracle. The Python body wraps the call in `try/except` that only prints
and re-raises, and normalises absent labels to `{}` — the oracle already
returns the label dict, so the net effect is the oracle's own result,
errors included. -/
def get_secret_labels (client_get_secret : String → Except String Labels)
    (secret_name : String) : Except String Labels :=
  client_get_secret secret_name

/-- The environment keys `handle_secret_event` reads via
`os.environ.get`; `none` models an absent variable. -/
structure Env where
  GITLAB_URL : Option String
  GITLAB_PROJECT_ID : Option String
  GITLAB_REF : Option String
  GITLAB_TRIGGER_TOKEN : Option String
  REQUIRED_LABELS : Option String
  GCP_PROJECT_ID : Option String

/-- The fields of `cloud_event.data["protoPayload"]` the handler reads;
`none` models an absent key (including an absent
`authenticationInfo` for `principalEmail`). -/
structure ProtoPayload where
  methodName : Option String
  resourceName : Option String
  principalEmail : Option String

/-- The inbound CloudEvent: `data.get("protoPayload", ...)`. -/
structure CloudEvent where
  protoPayload : Option ProtoPayload

/-- Default for `data.get("protoPayload", \x7b\x7d)`: an empty dict, i.e.
every field lookup misses. -/
def emptyProtoPayload : ProtoPayload := ⟨none, none, none⟩

/-- Python truthiness test `not x` for an `os.environ.get(k)` result:
true exactly when the variable is absent or the empty string. -/
def pyFalsy : Option String → Bool
  | none => true
  | some s => s == ""

/-- The JSON text `"\x7b\x7d"` (an empty object), the default for
`os.environ.get("REQUIRED_LABELS", ...)`. -/
def jsonEmptyObject : String := "\x7b\x7d"

/-- Handler line `method_name = proto_payload.get("methodName", "").split(".")[-1]`. -/
def methodNameOf (ce : CloudEvent) : String :=
  String.mk ((splitChar '.'
    ((ce.protoPayload.getD emptyProtoPayload).methodName.getD "").data).getLastD [])

/-- Handler line `resource_name = proto_payload.get("resourceName", "")`. -/
def resourceNameOf (ce : CloudEvent) : String :=
  (ce.protoPayload.getD emptyProtoPayload).resourceName.getD ""

/-- Handler line reading `authenticationInfo.principalEmail` with default
`"unknown"`. -/
def callerEmailOf (ce : CloudEvent) : String :=
  (ce.protoPayload.getD emptyProtoPayload).principalEmail.getD "unknown"

/-- Handler lines parsing `REQUIRED_LABELS`: `json.loads` of the raw value
(default `"\x7b\x7d"`), with a `JSONDecodeError` (`none`) replaced by the
empty dict. -/
def requiredLabelsOf (jsonLoads : String → Option Labels) (env : Env) : Labels :=
  (jsonLoads (env.REQUIRED_LABELS.getD jsonEmptyObject)).getD []

/-- The `variables` dict the handler builds for the pipeline
(`SECRET_EVENT_TYPE`, `SECRET_NAME`, `SECRET_RESOURCE`, `GCP_PROJECT_ID`
via `project_id or ""`, `TRIGGERED_BY`). -/
def variablesOf (env : Env) (ce : CloudEvent) : Labels :=
  [("SECRET_EVENT_TYPE", get_event_type (methodNameOf ce)),
   ("SECRET_NAME", extract_secret_name (resourceNameOf ce)),
   ("SECRET_RESOURCE", resourceNameOf ce),
   ("GCP_PROJECT_ID", env.GCP_PROJECT_ID.getD ""),
   ("TRIGGERED_BY", callerEmailOf ce)]

/-- The trigger request the handler would send: `trigger_gitlab_pipeline`
applied to `GITLAB_URL` (default `https://gitlab.com`), the configured
project id and token, `GITLAB_REF` (default `main`) and the variables. -/
def requestOf (env : Env) (ce : CloudEvent) : TriggerRequest :=
  buildTriggerRequest (env.GITLAB_URL.getD "https://gitlab.com")
    (env.GITLAB_PROJECT_ID.getD "") (env.GITLAB_TRIGGER_TOKEN.getD "")
    (env.GITLAB_REF.getD "main") (variablesOf env ce)

/-- Observable outcome of one `handle_secret_event` invocation.
`missingConfig`, `labelMismatch` and `triggered` are normal returns;
`storeError` and `triggerError` model an exception propagating out of the
handler (both `except` blocks re-raise). -/
inductive HandlerResult where
  | missingConfig
  | labelMismatch
  | storeError (e : String)
  | triggered (req : TriggerRequest) (resp : Labels)
  | triggerError (req : TriggerRequest) (e : String)

/-- True exactly when the invocation constructed and sent a trigger
request (whether or not the POST then failed). -/
def triggerAttempted : HandlerResult → Bool
  | HandlerResult.triggered _ _ => true
  | HandlerResult.triggerError _ _ => true
  | _ => false

/-- True exactly when the invocation ends with an exception propagating to
the caller instead of a normal return. -/
def raisesException : HandlerResult → Bool
  | HandlerResult.storeError _ => true
  | HandlerResult.triggerError _ _ => true
  | _ => false

/-- Embedding of `handle_secret_event(cloud_event)`: guard on falsy
`GITLAB_PROJECT_ID` / `GITLAB_TRIGGER_TOKEN` (silent return), parse the
label policy, strip the version from the resource path, fetch the
secret's labels (errors propagate), gate on `check_required_labels`
(silent return on mismatch), then build the variables and call
`trigger_gitlab_pipeline` (errors propagate). -/
def handle_secret_event (jsonLoads : String → Option Labels)
    (client_get_secret : String → Except String Labels)
    (post : TriggerRequest → Except String Labels)
    (env : Env) (cloud_event : CloudEvent) : HandlerResult :=
  if pyFalsy env.GITLAB_PROJECT_ID || pyFalsy env.GITLAB_TRIGGER_TOKEN then
    HandlerResult.missingConfig
  else
    match get_secret_labels client_get_secret
        (get_secret_resource_path (resourceNameOf cloud_event)) with
    | Except.error e => HandlerResult.storeError e
    | Except.ok secret_labels =>
      if check_required_labels secret_labels (requiredLabelsOf jsonLoads env) = false then
        HandlerResult.labelMismatch
      else
        match trigger_gitlab_pipeline post (env.GITLAB_URL.getD "https://gitlab.com")
            (env.GITLAB_PROJECT_ID.getD "") (env.GITLAB_TRIGGER_TOKEN.getD "")
            (env.GITLAB_REF.getD "main") (variablesOf env cloud_event) with
        | Except.ok resp => HandlerResult.triggered (requestOf env cloud_event) resp
        | Except.error e => HandlerResult.triggerError (requestOf env cloud_event) e

/-! ## Helper lemmas -/

theorem check_required_labels_iff (sl rl : Labels) :
    check_required_labels sl rl = true ↔ ∀ kv ∈ rl, dictGet sl kv.1 = some kv.2 := by
  induction rl with
  | nil => simp [check_required_labels]
  | cons kv rest ih =>
    obtain ⟨k, v⟩ := kv
    by_cases h : dictGet sl k = some v
    · simp [check_required_labels, h, ih]
    · simp [check_required_labels, h]

theorem splitChar_ne_nil (sep : Char) (l : List Char) : splitChar sep l ≠ [] := by
  induction l with
  | nil => simp [splitChar]
  | cons c cs ih =>
    by_cases h : c = sep
    · simp [splitChar, h]
    · cases hs : splitChar sep cs with
      | nil => simp [splitChar, h, hs]
      | cons seg rest => simp [splitChar, h, hs]

theorem splitChar_append (sep : Char) (a b : List Char) :
    splitChar sep (a ++ sep :: b) = splitChar sep a ++ splitChar sep b := by
  induction a with
  | nil => simp [splitChar]
  | cons c cs ih =>
    by_cases h : c = sep
    · simp [splitChar, h, ih]
    · cases hs : splitChar sep cs with
      | nil => exact absurd hs (splitChar_ne_nil sep cs)
      | cons seg rest => simp [splitChar, h, ih, hs]

theorem splitChar_of_not_mem (sep : Char) (a : List Char) (h : sep ∉ a) :
    splitChar sep a = [a] := by
  induction a with
  | nil => rfl
  | cons c cs ih =>
    have hc : ¬c = sep := by rintro rfl; exact h (List.mem_cons_self _ _)
    have hcs : sep ∉ cs := fun hm => h (List.mem_cons_of_mem _ hm)
    simp [splitChar, hc, ih hcs]

theorem joinChar_cons_head (sep c : Char) (seg : List Char) (rest : List (List Char)) :
    joinChar sep ((c :: seg) :: rest) = c :: joinChar sep (seg :: rest) := by
  cases rest <;> simp [joinChar]

theorem joinChar_splitChar (sep : Char) (l : List Char) :
    joinChar sep (splitChar sep l) = l := by
  induction l with
  | nil => rfl
  | cons c cs ih =>
    by_cases h : c = sep
    · cases hs : splitChar sep cs with
      | nil => exact absurd hs (splitChar_ne_nil sep cs)
      | cons seg rest =>
        have h2 : splitChar sep (c :: cs) = [] :: seg :: rest := by simp [splitChar, h, hs]
        rw [h2]
        simp only [joinChar, List.nil_append]
        rw [← hs, ih, h]
    · cases hs : splitChar sep cs with
      | nil => exact absurd hs (splitChar_ne_nil sep cs)
      | cons seg rest =>
        have h2 : splitChar sep (c :: cs) = (c :: seg) :: rest := by simp [splitChar, h, hs]
        rw [h2, joinChar_cons_head, ← hs, ih]

theorem pyIndex_eq_none (x : List Char) (l : List (List Char)) (h : x ∉ l) :
    pyIndex x l = none := by
  induction l with
  | nil => rfl
  | cons y ys ih =>
    have hy : ¬y = x := fun he => h (he ▸ List.mem_cons_self _ _)
    have hys : x ∉ ys := fun hm => h (List.mem_cons_of_mem _ hm)
    simp [pyIndex, hy, ih hys]

theorem pyIndex_append (x : List Char) (pre post : List (List Char)) (h : x ∉ pre) :
    pyIndex x (pre ++ x :: post) = some pre.length := by
  induction pre with
  | nil => simp [pyIndex]
  | cons y ys ih =>
    have hy : ¬y = x := fun he => h (he ▸ List.mem_cons_self _ _)
    have hys : x ∉ ys := fun hm => h (List.mem_cons_of_mem _ hm)
    simp [pyIndex, hy, ih hys]

theorem string_mk_data (s : String) : String.mk s.data = s := by cases s; rfl

theorem extract_from_parts (r : String) (pre post : List (List Char)) (sl : List Char)
    (hpre : "secrets".data ∉ pre)
    (hsplit : splitChar '/' r.data = pre ++ "secrets".data :: sl :: post) :
    extract_secret_name r = String.mk sl := by
  have hget : (pre ++ "secrets".data :: sl :: post)[pre.length + 1]? = some sl := by
    rw [List.getElem?_append_right (Nat.le_add_right pre.length 1)]
    simp
  simp only [extract_secret_name]
  rw [hsplit, pyIndex_append _ _ _ hpre]
  simp [hget]

theorem strip_version_from_parts (r : String) (pre post : List (List Char))
    (hpre : "versions".data ∉ pre)
    (hsplit : splitChar '/' r.data = pre ++ "versions".data :: post) :
    get_secret_resource_path r = String.mk (joinChar '/' pre) := by
  simp only [get_secret_resource_path]
  rw [hsplit, pyIndex_append _ _ _ hpre]
  simp [List.take_left]

/-! ## Claim theorems -/

/-- C2. `check_required_labels(secret_labels, required_labels)` is true iff
every required (key, value) pair is present identically in the secret's
labels; it is vacuously true on an empty policy, false as soon as one
required key is missing or differs, and false on an empty label dict
against a nonempty policy. -/
theorem check_required_labels_correct (sl rl : Labels) :
    (check_required_labels sl rl = true ↔ ∀ kv ∈ rl, dictGet sl kv.1 = some kv.2)
    ∧ check_required_labels sl [] = true
    ∧ (∀ k v, (k, v) ∈ rl → dictGet sl k ≠ some v → check_required_labels sl rl = false)
    ∧ (rl ≠ [] → check_required_labels [] rl = false) := by
  refine ⟨check_required_labels_iff sl rl, rfl, ?_, ?_⟩
  · intro k v hmem hne
    cases hc : check_required_labels sl rl with
    | false => rfl
    | true => exact absurd ((check_required_labels_iff sl rl).mp hc (k, v) hmem) hne
  · intro hne
    cases rl with
    | nil => exact absurd rfl hne
    | cons kv rest =>
      obtain ⟨k, v⟩ := kv
      simp [check_required_labels, dictGet]

theorem check_required_labels_correct_witness :
    check_required_labels [] [("a", "b")] = false
    ∧ check_required_labels [("x", "y")] [] = true :=
  ⟨(check_required_labels_correct [] [("a", "b")]).2.2.2 (by decide),
   (check_required_labels_correct [("x", "y")] []).2.1⟩

/-- C6. `get_event_type` realises the exact closed mapping
AddSecretVersion→CREATE, EnableSecretVersion→ENABLE,
DisableSecretVersion→DISABLE, DestroySecretVersion→DESTROY, and sends
every other string — the empty string included — to UNKNOWN. -/
theorem get_event_type_closed_mapping :
    get_event_type "AddSecretVersion" = "CREATE"
    ∧ get_event_type "EnableSecretVersion" = "ENABLE"
    ∧ get_event_type "DisableSecretVersion" = "DISABLE"
    ∧ get_event_type "DestroySecretVersion" = "DESTROY"
    ∧ get_event_type "" = "UNKNOWN"
    ∧ (∀ m : String, m ≠ "AddSecretVersion" → m ≠ "EnableSecretVersion" →
        m ≠ "DisableSecretVersion" → m ≠ "DestroySecretVersion" →
        get_event_type m = "UNKNOWN") := by
  refine ⟨by decide, by decide, by decide, by decide, by decide, ?_⟩
  intro m h1 h2 h3 h4
  simp [get_event_type, event_type_mapping, dictGet,
    Ne.symm h1, Ne.symm h2, Ne.symm h3, Ne.symm h4]

theorem get_event_type_closed_mapping_witness :
    get_event_type "UnknownMethod" = "UNKNOWN" :=
  get_event_type_closed_mapping.2.2.2.2.2 "UnknownMethod"
    (by decide) (by decide) (by decide) (by decide)

/-- C4. When `GITLAB_PROJECT_ID` or `GITLAB_TRIGGER_TOKEN` is absent from
the environment, the handler returns normally with `missingConfig`:
no exception, no trigger attempt, and the result does not depend on the
secret-store or HTTP oracles (neither boundary call is reached). -/
theorem missing_config_silent_skip (jsonLoads : String → Option Labels)
    (client_get_secret : String → Except String Labels)
    (post : TriggerRequest → Except String Labels) (env : Env) (ce : CloudEvent)
    (h : env.GITLAB_PROJECT_ID = none ∨ env.GITLAB_TRIGGER_TOKEN = none) :
    handle_secret_event jsonLoads client_get_secret post env ce = HandlerResult.missingConfig
    ∧ raisesException (handle_secret_event jsonLoads client_get_secret post env ce) = false
    ∧ triggerAttempted (handle_secret_event jsonLoads client_get_secret post env ce) = false
    ∧ (∀ (g : String → Except String Labels) (p : TriggerRequest → Except String Labels),
        handle_secret_event jsonLoads g p env ce = HandlerResult.missingConfig) := by
  have hmain : ∀ (g : String → Except String Labels) (p : TriggerRequest → Except String Labels),
      handle_secret_event jsonLoads g p env ce = HandlerResult.missingConfig := by
    intro g p
    rcases h with h | h <;> simp [handle_secret_event, pyFalsy, h]
  exact ⟨hmain _ _, by simp [hmain _ _, raisesException],
    by simp [hmain _ _, triggerAttempted], hmain⟩

theorem missing_config_silent_skip_witness :
    handle_secret_event (fun _ => some []) (fun _ => Except.ok [])
      (fun _ => Except.ok []) ⟨none, none, none, some "tok", none, none⟩
      ⟨some ⟨some "AddSecretVersion", some "projects/p/secrets/s", none⟩⟩
      = HandlerResult.missingConfig :=
  (missing_config_silent_skip _ _ _ _ _ (Or.inl rfl)).1

/-- C10. A `GITLAB_PROJECT_ID` or `GITLAB_TRIGGER_TOKEN` that is present
but equal to the empty string is treated exactly like an absent one: the
guard tests Python falsiness, so the handler returns `missingConfig`
normally and never calls the trigger. -/
theorem empty_config_treated_as_missing (jsonLoads : String → Option Labels)
    (client_get_secret : String → Except String Labels)
    (post : TriggerRequest → Except String Labels) (env : Env) (ce : CloudEvent)
    (h : env.GITLAB_PROJECT_ID = some "" ∨ env.GITLAB_TRIGGER_TOKEN = some "") :
    handle_secret_event jsonLoads client_get_secret post env ce = HandlerResult.missingConfig
    ∧ raisesException (handle_secret_event jsonLoads client_get_secret post env ce) = false
    ∧ triggerAttempted (handle_secret_event jsonLoads client_get_secret post env ce) = false := by
  have hmain : handle_secret_event jsonLoads client_get_secret post env ce
      = HandlerResult.missingConfig := by
    rcases h with h | h <;> simp [handle_secret_event, pyFalsy, h]
  exact ⟨hmain, by simp [hmain, raisesException], by simp [hmain, triggerAttempted]⟩

theorem empty_config_treated_as_missing_witness :
    handle_secret_event (fun _ => some []) (fun _ => Except.ok [])
      (fun _ => Except.ok []) ⟨none, some "", none, some "tok", none, none⟩
      ⟨some ⟨some "AddSecretVersion", some "projects/p/secrets/s", none⟩⟩
      = HandlerResult.missingConfig :=
  (empty_config_treated_as_missing _ _ _ _ _ (Or.inl rfl)).1

/-- C3. When the secret-store lookup fails (the oracle raises), the
handler neither catches the failure nor attempts the trigger: the
invocation ends with the store exception propagating to the caller
(`storeError`, not a normal return). -/
theorem store_failure_propagates (jsonLoads : String → Option Labels)
    (client_get_secret : String → Except String Labels)
    (post : TriggerRequest → Except String Labels) (env : Env) (ce : CloudEvent)
    (e : String)
    (h1 : pyFalsy env.GITLAB_PROJECT_ID = false)
    (h2 : pyFalsy env.GITLAB_TRIGGER_TOKEN = false)
    (h3 : client_get_secret (get_secret_resource_path (resourceNameOf ce)) = Except.error e) :
    handle_secret_event jsonLoads client_get_secret post env ce = HandlerResult.storeError e
    ∧ raisesException (handle_secret_event jsonLoads client_get_secret post env ce) = true
    ∧ triggerAttempted (handle_secret_event jsonLoads client_get_secret post env ce) = false := by
  have hmain : handle_secret_event jsonLoads client_get_secret post env ce
      = HandlerResult.storeError e := by
    simp [handle_secret_event, get_secret_labels, h1, h2, h3]
  exact ⟨hmain, by simp [hmain, raisesException], by simp [hmain, triggerAttempted]⟩

theorem store_failure_propagates_witness :
    handle_secret_event (fun _ => some []) (fun _ => Except.error "store unavailable")
      (fun _ => Except.ok []) ⟨none, some "123", none, some "tok", none, none⟩
      ⟨some ⟨some "AddSecretVersion", some "projects/p/secrets/s/versions/1", none⟩⟩
      = HandlerResult.storeError "store unavailable" :=
  (store_failure_propagates (fun _ => some []) (fun _ => Except.error "store unavailable")
      (fun _ => Except.ok []) ⟨none, some "123", none, some "tok", none, none⟩
      ⟨some ⟨some "AddSecretVersion", some "projects/p/secrets/s/versions/1", none⟩⟩
      "store unavailable" (by decide) (by decide) rfl).1

/-- C1. A pipeline-trigger request is constructed and sent only when the
label gate passes: any invocation that attempts the trigger had a
successful label fetch whose result satisfies `check_required_labels`
against the configured policy; and whenever the gate is reached and
fails, the handler returns normally with `labelMismatch`, never calling
the trigger client. -/
theorem trigger_gated_by_labels (jsonLoads : String → Option Labels)
    (client_get_secret : String → Except String Labels)
    (post : TriggerRequest → Except String Labels) (env : Env) (ce : CloudEvent) :
    (triggerAttempted (handle_secret_event jsonLoads client_get_secret post env ce) = true →
      ∃ secret_labels,
        client_get_secret (get_secret_resource_path (resourceNameOf ce))
          = Except.ok secret_labels
        ∧ check_required_labels secret_labels (requiredLabelsOf jsonLoads env) = true)
    ∧ (pyFalsy env.GITLAB_PROJECT_ID = false → pyFalsy env.GITLAB_TRIGGER_TOKEN = false →
       ∀ secret_labels,
         client_get_secret (get_secret_resource_path (resourceNameOf ce))
           = Except.ok secret_labels →
         check_required_labels secret_labels (requiredLabelsOf jsonLoads env) = false →
         handle_secret_event jsonLoads client_get_secret post env ce
           = HandlerResult.labelMismatch) := by
  constructor
  · intro hatt
    by_cases hguard : (pyFalsy env.GITLAB_PROJECT_ID || pyFalsy env.GITLAB_TRIGGER_TOKEN) = true
    · simp [handle_secret_event, hguard, triggerAttempted] at hatt
    · have hguard' : (pyFalsy env.GITLAB_PROJECT_ID || pyFalsy env.GITLAB_TRIGGER_TOKEN) = false := by
        simpa using hguard
      cases hs : client_get_secret (get_secret_resource_path (resourceNameOf ce)) with
      | error e =>
        simp [handle_secret_event, get_secret_labels, hguard', hs, triggerAttempted] at hatt
      | ok secret_labels =>
        refine ⟨secret_labels, rfl, ?_⟩
        by_contra hchk
        have hchk' : check_required_labels secret_labels (requiredLabelsOf jsonLoads env) = false := by
          simpa using hchk
        simp [handle_secret_event, get_secret_labels, hguard', hs, hchk', triggerAttempted] at hatt
  · intro h1 h2 secret_labels hs hchk
    simp [handle_secret_event, get_secret_labels, h1, h2, hs, hchk]

theorem trigger_gated_by_labels_witness :
    handle_secret_event (fun _ => some [("application", "n8n")])
      (fun _ => Except.ok [("application", "other-app")]) (fun _ => Except.ok [])
      ⟨none, some "123", none, some "tok", some "p", none⟩
      ⟨some ⟨some "AddSecretVersion", some "projects/p/secrets/s/versions/1", none⟩⟩
      = HandlerResult.labelMismatch :=
  (trigger_gated_by_labels (fun _ => some [("application", "n8n")])
      (fun _ => Except.ok [("application", "other-app")]) (fun _ => Except.ok [])
      ⟨none, some "123", none, some "tok", some "p", none⟩
      ⟨some ⟨some "AddSecretVersion", some "projects/p/secrets/s/versions/1", none⟩⟩).2
    (by decide) (by decide) [("application", "other-app")] rfl (by decide)

/-- C5. When the configured `REQUIRED_LABELS` string does not parse as
JSON, the handler does not fail: it behaves exactly as if the variable
had been the JSON text of an empty object, the substituted empty policy
accepts every label set, and (configuration present, store succeeding)
the trigger is attempted. -/
theorem invalid_policy_json_fail_open (jsonLoads : String → Option Labels)
    (client_get_secret : String → Except String Labels)
    (post : TriggerRequest → Except String Labels) (env : Env) (ce : CloudEvent)
    (hparse : jsonLoads (env.REQUIRED_LABELS.getD jsonEmptyObject) = none)
    (hempty : jsonLoads jsonEmptyObject = some []) :
    handle_secret_event jsonLoads client_get_secret post env ce
      = handle_secret_event jsonLoads client_get_secret post
          ⟨env.GITLAB_URL, env.GITLAB_PROJECT_ID, env.GITLAB_REF,
           env.GITLAB_TRIGGER_TOKEN, some jsonEmptyObject, env.GCP_PROJECT_ID⟩ ce
    ∧ (∀ secret_labels,
        check_required_labels secret_labels (requiredLabelsOf jsonLoads env) = true)
    ∧ (pyFalsy env.GITLAB_PROJECT_ID = false → pyFalsy env.GITLAB_TRIGGER_TOKEN = false →
       ∀ secret_labels,
         client_get_secret (get_secret_resource_path (resourceNameOf ce))
           = Except.ok secret_labels →
         triggerAttempted (handle_secret_event jsonLoads client_get_secret post env ce)
           = true) := by
  have hrl : requiredLabelsOf jsonLoads env = [] := by
    simp [requiredLabelsOf, hparse]
  refine ⟨?_, ?_, ?_⟩
  · simp [handle_secret_event, requiredLabelsOf, variablesOf, requestOf, hparse, hempty]
  · intro secret_labels
    simp [hrl, check_required_labels]
  · intro h1 h2 secret_labels hs
    have hchk : check_required_labels secret_labels (requiredLabelsOf jsonLoads env) = true := by
      simp [hrl, check_required_labels]
    cases htr : trigger_gitlab_pipeline post (env.GITLAB_URL.getD "https://gitlab.com")
        (env.GITLAB_PROJECT_ID.getD "") (env.GITLAB_TRIGGER_TOKEN.getD "")
        (env.GITLAB_REF.getD "main") (variablesOf env ce) with
    | error e =>
      simp [handle_secret_event, get_secret_labels, h1, h2, hs, hchk, htr, triggerAttempted]
    | ok resp =>
      simp [handle_secret_event, get_secret_labels, h1, h2, hs, hchk, htr, triggerAttempted]

theorem invalid_policy_json_fail_open_witness :
    triggerAttempted (handle_secret_event
      (fun s => if s = jsonEmptyObject then some [] else none)
      (fun _ => Except.ok []) (fun _ => Except.ok [])
      ⟨none, some "123", none, some "tok", some "invalid-json", none⟩
      ⟨some ⟨some "AddSecretVersion", some "projects/p/secrets/s/versions/1", none⟩⟩)
      = true :=
  (invalid_policy_json_fail_open _ _ _ _ _ (by decide) (by decide)).2.2
    (by decide) (by decide) [] rfl

/-- C8 counterexample. The claim quantifies over every `p`, but when `p`
itself contains a `/`-separated segment equal to `"secrets"`, the code
returns the segment after the *first* `"secrets"` segment, which lies
inside `p`'s contribution to the path — here `"secrets"`, not the claimed
`s = "x"` (and `s` does satisfy the claim's only side condition, having
no `/`). -/
theorem extract_secret_name_counterexample :
    extract_secret_name ("projects/" ++ "secrets" ++ "/secrets/" ++ "x") ≠ "x"
    ∧ extract_secret_name ("projects/" ++ "secrets" ++ "/secrets/" ++ "x") = "secrets"
    ∧ '/' ∉ "x".data := by decide

/-- C8 (amended). `extract_secret_name` splits on `/` and, when a
`"secrets"` segment is present and followed by another segment, returns
the segment immediately after the first `"secrets"` segment; with no
`"secrets"` segment it returns the input unchanged. In particular, for
every `p` none of whose `/`-separated segments equals `"secrets"` and
every `s` containing no `/`,
`extract_secret_name ("projects/" ++ p ++ "/secrets/" ++ s) = s`, with or
without a `"/versions/..."` suffix, and `extract_secret_name "" = ""`. -/
theorem extract_secret_name_amended (p s v : String)
    (hp : "secrets".data ∉ splitChar '/' p.data)
    (hs : '/' ∉ s.data) :
    extract_secret_name ("projects/" ++ p ++ "/secrets/" ++ s) = s
    ∧ extract_secret_name ("projects/" ++ p ++ "/secrets/" ++ s ++ "/versions/" ++ v) = s
    ∧ extract_secret_name "" = ""
    ∧ (∀ r : String, "secrets".data ∉ splitChar '/' r.data → extract_secret_name r = r) := by
  have hpre : "secrets".data ∉ ("projects".data :: splitChar '/' p.data) := by
    intro hmem
    rcases List.mem_cons.mp hmem with h | h
    · exact absurd h (by decide)
    · exact hp h
  have l1 : "projects/".data = "projects".data ++ ['/'] := by decide
  have l2 : "/secrets/".data = '/' :: ("secrets".data ++ ['/']) := by decide
  have l3 : "/versions/".data = '/' :: ("versions".data ++ ['/']) := by decide
  refine ⟨?_, ?_, rfl, ?_⟩
  · have hdata : ("projects/" ++ p ++ "/secrets/" ++ s).data
        = "projects".data ++ '/' :: (p.data ++ '/' :: ("secrets".data ++ '/' :: s.data)) := by
      simp [String.data_append, l1, l2]
    have hsplit : splitChar '/' ("projects/" ++ p ++ "/secrets/" ++ s).data
        = ("projects".data :: splitChar '/' p.data) ++ "secrets".data :: s.data :: [] := by
      rw [hdata, splitChar_append, splitChar_append, splitChar_append,
        splitChar_of_not_mem '/' "projects".data (by decide),
        splitChar_of_not_mem '/' "secrets".data (by decide),
        splitChar_of_not_mem '/' s.data hs]
      simp
    rw [extract_from_parts _ _ _ _ hpre hsplit, string_mk_data]
  · have hdata : ("projects/" ++ p ++ "/secrets/" ++ s ++ "/versions/" ++ v).data
        = "projects".data ++ '/' :: (p.data ++ '/' :: ("secrets".data ++ '/' ::
            (s.data ++ '/' :: ("versions".data ++ '/' :: v.data)))) := by
      simp [String.data_append, l1, l2, l3]
    have hsplit : splitChar '/' ("projects/" ++ p ++ "/secrets/" ++ s ++ "/versions/" ++ v).data
        = ("projects".data :: splitChar '/' p.data)
            ++ "secrets".data :: s.data :: ("versions".data :: splitChar '/' v.data) := by
      rw [hdata, splitChar_append, splitChar_append, splitChar_append, splitChar_append,
        splitChar_append,
        splitChar_of_not_mem '/' "projects".data (by decide),
        splitChar_of_not_mem '/' "secrets".data (by decide),
        splitChar_of_not_mem '/' s.data hs,
        splitChar_of_not_mem '/' "versions".data (by decide)]
      simp
    rw [extract_from_parts _ _ _ _ hpre hsplit, string_mk_data]
  · intro r hr
    simp only [extract_secret_name]
    rw [pyIndex_eq_none _ _ hr]

theorem extract_secret_name_amended_witness :
    extract_secret_name ("projects/" ++ "my-project" ++ "/secrets/" ++ "my-secret")
      = "my-secret" :=
  (extract_secret_name_amended "my-project" "my-secret" "1" (by decide) (by decide)).1

/-- C9. `get_secret_resource_path` splits on `/`; when a `"versions"`
segment is present it returns the path truncated to just before that
segment (`a ++ "/versions/" ++ b ↦ a` for any `a` with no `"versions"`
segment and any `b`), and on every path without a `"versions"` segment —
the empty string included — it is the identity. -/
theorem get_secret_resource_path_spec (a b : String)
    (ha : "versions".data ∉ splitChar '/' a.data) :
    get_secret_resource_path (a ++ "/versions/" ++ b) = a
    ∧ (∀ r : String, "versions".data ∉ splitChar '/' r.data →
        get_secret_resource_path r = r)
    ∧ get_secret_resource_path "" = "" := by
  refine ⟨?_, ?_, rfl⟩
  · have l3 : "/versions/".data = '/' :: ("versions".data ++ ['/']) := by decide
    have hdata : (a ++ "/versions/" ++ b).data
        = a.data ++ '/' :: ("versions".data ++ '/' :: b.data) := by
      simp [String.data_append, l3]
    have hsplit : splitChar '/' (a ++ "/versions/" ++ b).data
        = splitChar '/' a.data ++ "versions".data :: splitChar '/' b.data := by
      rw [hdata, splitChar_append, splitChar_append,
        splitChar_of_not_mem '/' "versions".data (by decide)]
      simp
    rw [strip_version_from_parts _ _ _ ha hsplit, joinChar_splitChar, string_mk_data]
  · intro r hr
    simp only [get_secret_resource_path]
    rw [pyIndex_eq_none _ _ hr]

theorem get_secret_resource_path_spec_witness :
    get_secret_resource_path ("projects/p/secrets/s" ++ "/versions/" ++ "1")
      = "projects/p/secrets/s" :=
  (get_secret_resource_path_spec "projects/p/secrets/s" "1" (by decide)).1

theorem quoteByte_no_slash : ∀ b < 256, '/' ∉ quoteByte b := by decide

theorem or_byte_lt (x y : Nat) (hx : x < 256) (hy : y < 256) : x ||| y < 256 := by
  have h := Nat.or_lt_two_pow (n := 8) hx hy
  simpa using h

theorem and63_lt (x : Nat) : x &&& 63 < 256 :=
  lt_of_le_of_lt Nat.and_le_right (by norm_num)

theorem utf8Bytes_lt (c : Char) : ∀ b ∈ utf8Bytes c, b < 256 := by
  intro b hb
  have hval : c.toNat < 1114112 := by
    rcases c.valid with h | ⟨_, h2⟩
    · exact Nat.lt_trans h (by norm_num)
    · exact h2
  by_cases h1 : c.toNat < 128
  · have e : utf8Bytes c = [c.toNat] := by simp [utf8Bytes, h1]
    rw [e] at hb
    simp at hb
    omega
  · by_cases h2 : c.toNat < 2048
    · have e : utf8Bytes c = [192 ||| (c.toNat >>> 6), 128 ||| (c.toNat &&& 63)] := by
        simp [utf8Bytes, h1, h2]
      rw [e] at hb
      simp at hb
      rcases hb with rfl | rfl
      · refine or_byte_lt _ _ (by norm_num) ?_
        rw [Nat.shiftRight_eq_div_pow]
        omega
      · exact or_byte_lt _ _ (by norm_num) (and63_lt _)
    · by_cases h3 : c.toNat < 65536
      · have e : utf8Bytes c
            = [224 ||| (c.toNat >>> 12), 128 ||| ((c.toNat >>> 6) &&& 63),
               128 ||| (c.toNat &&& 63)] := by
          simp [utf8Bytes, h1, h2, h3]
        rw [e] at hb
        simp at hb
        rcases hb with rfl | rfl | rfl
        · refine or_byte_lt _ _ (by norm_num) ?_
          rw [Nat.shiftRight_eq_div_pow]
          omega
        · exact or_byte_lt _ _ (by norm_num) (and63_lt _)
        · exact or_byte_lt _ _ (by norm_num) (and63_lt _)
      · have e : utf8Bytes c
            = [240 ||| (c.toNat >>> 18), 128 ||| ((c.toNat >>> 12) &&& 63),
               128 ||| ((c.toNat >>> 6) &&& 63), 128 ||| (c.toNat &&& 63)] := by
          simp [utf8Bytes, h1, h2, h3]
        rw [e] at hb
        simp at hb
        rcases hb with rfl | rfl | rfl | rfl
        · refine or_byte_lt _ _ (by norm_num) ?_
          rw [Nat.shiftRight_eq_div_pow]
          omega
        · exact or_byte_lt _ _ (by norm_num) (and63_lt _)
        · exact or_byte_lt _ _ (by norm_num) (and63_lt _)
        · exact or_byte_lt _ _ (by norm_num) (and63_lt _)

theorem quote_no_slash (s : String) : '/' ∉ (quote s).data := by
  intro hmem
  have hq : (quote s).data = ((s.data.map utf8Bytes).flatten.map quoteByte).flatten := rfl
  rw [hq] at hmem
  obtain ⟨piece, hpiece, hcin⟩ := List.mem_flatten.mp hmem
  obtain ⟨b, hbmem, rfl⟩ := List.mem_map.mp hpiece
  obtain ⟨bs, hbs, hbin⟩ := List.mem_flatten.mp hbmem
  obtain ⟨c, _, rfl⟩ := List.mem_map.mp hbs
  exact quoteByte_no_slash b (utf8Bytes_lt c b hbin) hcin

theorem string_data_inj {a b : String} (h : a.data = b.data) : a = b := by
  cases a
  cases b
  exact congrArg String.mk h

theorem variables_key_ne_token (k : String) : ¬("variables[" ++ k ++ "]" = "token") := by
  intro h
  have hd := congrArg String.data h
  rw [String.data_append, String.data_append,
    show "variables[".data = 'v' :: "ariables[".data from by decide,
    show "token".data = 't' :: "oken".data from by decide,
    List.cons_append, List.cons_append] at hd
  injection hd with h1 _
  exact absurd h1 (by decide)

theorem variables_key_ne_ref (k : String) : ¬("variables[" ++ k ++ "]" = "ref") := by
  intro h
  have hd := congrArg String.data h
  rw [String.data_append, String.data_append,
    show "variables[".data = 'v' :: "ariables[".data from by decide,
    show "ref".data = 'r' :: "ef".data from by decide,
    List.cons_append, List.cons_append] at hd
  injection hd with h1 _
  exact absurd h1 (by decide)

theorem variables_key_inj {a b : String}
    (h : ("variables[" ++ a ++ "]" : String) = "variables[" ++ b ++ "]") : a = b := by
  have hd := congrArg String.data h
  rw [String.data_append, String.data_append, String.data_append, String.data_append] at hd
  exact string_data_inj (List.append_cancel_left (List.append_cancel_right hd))

theorem count_map_variablesField (V : Labels) (k v : String) :
    (V.map (fun kv : String × String =>
        (("variables[" ++ kv.1 ++ "]" : String), kv.2))).count
      ("variables[" ++ k ++ "]", v) = V.count (k, v) := by
  induction V with
  | nil => rfl
  | cons kv rest ih =>
    obtain ⟨k1, v1⟩ := kv
    simp only [List.map_cons, List.count_cons, ih, beq_iff_eq, Prod.mk.injEq]
    by_cases hk : k = k1
    · subst hk
      simp
    · have hne : ¬("variables[" ++ k1 ++ "]" = "variables[" ++ k ++ "]") :=
        fun hh => hk (variables_key_inj hh).symm
      have hk1 : ¬k1 = k := fun hh => hk hh.symm
      simp [hne, hk1]

/-- C7. For every variable mapping `V` and project id `P` (which may
contain `/`), the request built by `trigger_gitlab_pipeline` interpolates
the percent-encoded project id — which contains no raw `/` character —
as the project path segment of the URL, and its form body carries `token`
and `ref` as top-level fields plus exactly one `variables[k]=v` field per
`(k, v)` entry of `V` (entry counts agree, and the body has exactly
`|V| + 2` fields). -/
theorem trigger_request_shape (gitlab_url project_id trigger_token ref : String)
    (V : Labels) :
    (buildTriggerRequest gitlab_url project_id trigger_token ref V).url
      = gitlab_url ++ "/api/v4/projects/" ++ quote project_id ++ "/trigger/pipeline"
    ∧ (buildTriggerRequest gitlab_url project_id trigger_token ref V).encodedProject
      = quote project_id
    ∧ '/' ∉ (quote project_id).data
    ∧ ("token", trigger_token)
        ∈ (buildTriggerRequest gitlab_url project_id trigger_token ref V).payload
    ∧ ("ref", ref)
        ∈ (buildTriggerRequest gitlab_url project_id trigger_token ref V).payload
    ∧ (∀ k v : String,
        (buildTriggerRequest gitlab_url project_id trigger_token ref V).payload.count
          ("variables[" ++ k ++ "]", v) = V.count (k, v))
    ∧ (buildTriggerRequest gitlab_url project_id trigger_token ref V).payload.length
      = V.length + 2 := by
  refine ⟨rfl, rfl, quote_no_slash project_id, ?_, ?_, ?_, ?_⟩
  · simp [buildTriggerRequest]
  · simp [buildTriggerRequest]
  · intro k v
    have ht : ¬("token" = "variables[" ++ k ++ "]") :=
      fun hh => variables_key_ne_token k hh.symm
    have hr : ¬("ref" = "variables[" ++ k ++ "]") :=
      fun hh => variables_key_ne_ref k hh.symm
    simp only [buildTriggerRequest, List.count_cons, beq_iff_eq, Prod.mk.injEq, ht, hr,
      false_and, if_false, Nat.add_zero]
    exact count_map_variablesField V k v
  · simp [buildTriggerRequest]

example : get_event_type "AddSecretVersion" = "CREATE" := by decide
example : extract_secret_name "projects/my-project/secrets/my-secret/versions/1" = "my-secret" := by decide
example : extract_secret_name "projects/my-project/other/something" = "projects/my-project/other/something" := by decide
example : get_secret_resource_path "projects/p/secrets/s/versions/1" = "projects/p/secrets/s" := by decide
example : get_secret_resource_path "" = "" := by decide
example : quote "group/proj" = "group%2Fproj" := by decide
example : check_required_labels [("application", "n8n")] [("application", "n8n")] = true := by decide
example : check_required_labels [] [("a", "b")] = false := by decide
